import Mathlib

/-!
Shallow embedding of the receipt-scanner backend (a NestJS service) and
verification of the spec's claims about it.

Conventions of the embedding:
* JS strings are modelled as `List Char` (`Str`), JS numbers as `ℚ`
  (the arithmetic the code performs — sums, `* 0.1`, `Math.round(x*100)/100`,
  `parseFloat` of a `\d+[.,]\d{2}` token — is exact on these values).
* Each JS regular expression used by the code is implemented as a bespoke
  leftmost-match function with the backtracking behaviour of the concrete
  pattern (greedy quantifiers; alternatives tried in written order).
* Fallible code returns `Except`; side effects on the file store / record
  store are threaded through an explicit `SysState` with a call log.
-/

abbrev Str := List Char

/-- The characters of JS `\s` (ASCII range), also what `String.prototype.trim`
removes for the inputs this code handles. -/
def jsWsChar (c : Char) : Bool :=
  c = ' ' || c = '\t' || c = '\n' || c = '\r' || c = '\x0b' || c = '\x0c'

def trimLeft (s : Str) : Str := s.dropWhile jsWsChar

def trimRight (s : Str) : Str := (s.reverse.dropWhile jsWsChar).reverse

/-- JS `String.prototype.trim`. -/
def jsTrim (s : Str) : Str := trimRight (trimLeft s)

/-- JS `String.prototype.split` with a single-character separator. -/
def splitOnChar (sep : Char) : Str → List Str
  | [] => [[]]
  | c :: cs =>
    if c = sep then [] :: splitOnChar sep cs
    else
      match splitOnChar sep cs with
      | [] => [[c]]
      | t :: ts => (c :: t) :: ts

/-- ASCII lower-casing, as used by the `/i` regex flag and `toLowerCase`
on the ASCII file names / keywords this code compares. -/
def lowerCh (c : Char) : Char :=
  if 'A' ≤ c && c ≤ 'Z' then Char.ofNat (c.toNat + 32) else c

/-- Case-insensitive equality of two strings (ASCII). -/
def ciEq (a b : Str) : Bool := a.map lowerCh == b.map lowerCh

/-- Case-insensitively, does `s` start with `p`? -/
def ciStartsWith (p s : Str) : Bool := (s.take p.length).map lowerCh == p.map lowerCh

/-- Case-sensitively, does `s` start with `p`? -/
def startsWithS (p s : Str) : Bool := s.take p.length == p

/-- Substring containment (used only to state claims). -/
def containsSub (pat : Str) : Str → Bool
  | [] => pat.isEmpty
  | s@(_ :: rest) => startsWithS pat s || containsSub pat rest

namespace AiService

/-! ### `extractVendorName` (ai.service.ts lines 245-266) -/

/-- The alternatives of `/^(Rech|Receipt|Invoice|Bill|Date|Time|Table|Tisch)/i`. -/
def receiptHeaderKeywords : List Str :=
  ["Rech".data, "Receipt".data, "Invoice".data, "Bill".data,
   "Date".data, "Time".data, "Table".data, "Tisch".data]

/-- The alternatives of `/\s+(GmbH|AG|Ltd|Inc|Corp|LLC|Restaurant|Hotel|Cafe|Bar)$/i`. -/
def vendorSuffixTokens : List Str :=
  ["GmbH".data, "AG".data, "Ltd".data, "Inc".data, "Corp".data,
   "LLC".data, "Restaurant".data, "Hotel".data, "Cafe".data, "Bar".data]

/-- `/^[A-Z\s]+$/` : at least one character, all upper-case letters or whitespace. -/
def isUpperSpaceLine (s : Str) : Bool :=
  !s.isEmpty && s.all (fun c => ('A' ≤ c && c ≤ 'Z') || jsWsChar c)

/-- `/^\d/` : first character is a decimal digit. -/
def startsWithDigitCh (s : Str) : Bool :=
  match s with
  | [] => false
  | c :: _ => c.isDigit

/-- The line filter of `extractVendorName`: nonempty (JS truthiness), length > 3,
not starting with a digit, not all caps/whitespace, no receipt-header keyword. -/
def vendorCandidate (line : Str) : Bool :=
  !line.isEmpty && decide (line.length > 3) &&
    !startsWithDigitCh line && !isUpperSpaceLine line &&
    !receiptHeaderKeywords.any (fun k => ciStartsWith k line)

/-- Worker for `collapseWs`; the flag records whether the previous character
was whitespace (in which case further whitespace is absorbed into the same
replacement space). -/
def collapseWsGo : Bool → Str → Str
  | _, [] => []
  | prevWs, c :: cs =>
    if jsWsChar c then
      if prevWs then collapseWsGo true cs else ' ' :: collapseWsGo true cs
    else c :: collapseWsGo false cs

/-- `line.replace(/\s+/g, ' ')`: every maximal whitespace run becomes one space. -/
def collapseWs (s : Str) : Str := collapseWsGo false s

/-- Does `/\s+(GmbH|...)$/i` match the whole of `s`?  The `\s+` is a maximal
whitespace run (any shorter run would put a whitespace character where a
letter of the suffix word must stand), the rest must equal a suffix token
case-insensitively up to the end of the string. -/
def suffixEndMatch (s : Str) : Bool :=
  match s with
  | [] => false
  | c :: _ => jsWsChar c && vendorSuffixTokens.any (fun w => ciEq (s.dropWhile jsWsChar) w)

/-- Leftmost start position of a `/\s+(GmbH|...)$/i` match. -/
def findSuffixPos : Str → Option Nat
  | [] => none
  | s@(_ :: cs) => if suffixEndMatch s then some 0 else (findSuffixPos cs).map (· + 1)

/-- `vendorName.replace(/\s+(GmbH|...)$/i, '')`: remove the leftmost match
(which extends to the end of the string). -/
def stripVendorSuffix (s : Str) : Str :=
  match findSuffixPos s with
  | some i => s.take i
  | none => s

/-- The clean-up applied to a selected vendor line. -/
def cleanVendor (line : Str) : Str :=
  stripVendorSuffix (jsTrim (collapseWs line))

/-- The `for (let i = 0; i < Math.min(5, lines.length); i++)` scan. -/
def vendorScan : List Str → Nat → Str
  | _, 0 => "Unknown Vendor".data
  | [], _ + 1 => "Unknown Vendor".data
  | l :: rest, fuel + 1 =>
    let line := jsTrim l
    if vendorCandidate line then cleanVendor line else vendorScan rest fuel

def extractVendorName (lines : List Str) : Str := vendorScan lines 5

/-! ### `extractDate` (ai.service.ts lines 268-285)

The four date patterns are implemented with the exact backtracking order of
the JS regex engine: quantifiers are greedy (`\d{1,2}` tries 2 digits before
1, `\d{2,4}` tries 4, 3, then 2), `\s+` runs are maximal (a shorter run would
place a whitespace character where the following letter/digit must stand),
and a full match at an earlier string position wins. -/

def isSepCh (c : Char) : Bool := c = '/' || c = '-'

/-- Exactly `n` leading decimal digits, or nothing. -/
def takeDigits (s : Str) (n : Nat) : Option Str :=
  let t := s.take n
  if t.length = n && t.all Char.isDigit then some t else none

/-- `\d{2,4}` at the end of a pattern: greedy 4, 3, 2. -/
def d24End (s : Str) : Option Str :=
  (takeDigits s 4) <|> (takeDigits s 3) <|> (takeDigits s 2)

/-- `\d{1,2}` at the end of a pattern: greedy 2, 1. -/
def d12End (s : Str) : Option Str :=
  (takeDigits s 2) <|> (takeDigits s 1)

/-- `[\/\-]` followed by the continuation `k`. -/
def sepThen (k : Str → Option Str) (s : Str) : Option Str :=
  match s with
  | c :: rest => if isSepCh c then (k rest).map (fun m => c :: m) else none
  | [] => none

/-- `\d{1,2}` followed by the continuation `k`, with backtracking: the
two-digit reading is tried first and the one-digit reading only if the whole
continuation fails after it. -/
def d12Then (k : Str → Option Str) (s : Str) : Option Str :=
  (match takeDigits s 2 with
   | some d => (k (s.drop 2)).map (fun m => d ++ m)
   | none => none)
  <|>
  (match takeDigits s 1 with
   | some d => (k (s.drop 1)).map (fun m => d ++ m)
   | none => none)

/-- `\s+` followed by the continuation `k` (maximal run). -/
def wsThen (k : Str → Option Str) (s : Str) : Option Str :=
  let w := s.takeWhile jsWsChar
  if w.isEmpty then none else (k (s.dropWhile jsWsChar)).map (fun m => w ++ m)

/-- An alternation of literal month words (`/i`), each followed by `k`. -/
def monthThen (months : List Str) (k : Str → Option Str) (s : Str) : Option Str :=
  months.findSome? (fun m =>
    if ciStartsWith m s then (k (s.drop m.length)).map (fun r => s.take m.length ++ r)
    else none)

def monthAbbrevs : List Str :=
  ["Jan".data, "Feb".data, "Mar".data, "Apr".data, "May".data, "Jun".data,
   "Jul".data, "Aug".data, "Sep".data, "Oct".data, "Nov".data, "Dec".data]

def monthNames : List Str :=
  ["January".data, "February".data, "March".data, "April".data, "May".data,
   "June".data, "July".data, "August".data, "September".data, "October".data,
   "November".data, "December".data]

/-- `/\d{1,2}[\/\-]\d{1,2}[\/\-]\d{2,4}/` anchored at the start of `s`. -/
def matchP1At (s : Str) : Option Str :=
  d12Then (sepThen (d12Then (sepThen d24End))) s

/-- `/\d{4}[\/\-]\d{1,2}[\/\-]\d{1,2}/` anchored at the start of `s`. -/
def matchP2At (s : Str) : Option Str :=
  match takeDigits s 4 with
  | some d => ((sepThen (d12Then (sepThen d12End))) (s.drop 4)).map (fun m => d ++ m)
  | none => none

/-- `/\d{1,2}\s+(Jan|...|Dec)\s+\d{2,4}/i` anchored at the start of `s`. -/
def matchP3At (s : Str) : Option Str :=
  d12Then (wsThen (monthThen monthAbbrevs (wsThen d24End))) s

/-- `/\d{1,2}\s+(January|...|December)\s+\d{2,4}/i` anchored at the start of `s`. -/
def matchP4At (s : Str) : Option Str :=
  d12Then (wsThen (monthThen monthNames (wsThen d24End))) s

/-- `text.match(pattern)`: the leftmost match in `text`, if any. -/
def firstMatch (m : Str → Option Str) : Str → Option Str
  | [] => m []
  | s@(_ :: rest) => (m s) <|> firstMatch m rest

/-- Used to state C10: the string is empty or does not start with a digit. -/
def headNotDigit : Str → Bool
  | [] => true
  | c :: _ => !c.isDigit

/-- `extractDate`: patterns tried in order, first match of the first matching
pattern; `today` stands for `new Date().toLocaleDateString()`. -/
def extractDate (today : Str) (text : Str) : Str :=
  match firstMatch matchP1At text with
  | some m => m
  | none =>
    match firstMatch matchP2At text with
    | some m => m
    | none =>
      match firstMatch matchP3At text with
      | some m => m
      | none =>
        match firstMatch matchP4At text with
        | some m => m
        | none => today

/-! ### `extractCurrency` (ai.service.ts lines 287-305) -/

/-- JS `\w` : `[A-Za-z0-9_]`. -/
def isWordChar (c : Char) : Bool :=
  ('a' ≤ c && c ≤ 'z') || ('A' ≤ c && c ≤ 'Z') || c.isDigit || c = '_'

def optWord : Option Char → Bool
  | none => false
  | some c => isWordChar c

def headOpt : Str → Option Char
  | [] => none
  | c :: _ => some c

def getOpt (s : Str) (n : Nat) : Option Char := headOpt (s.drop n)

/-- Does `\blit\b` match at the start of `s`, where `prev` is the character
just before `s` in the full text (none at the string start)?  A `\b` holds
where word-ness changes, string ends counting as non-word. -/
def wbMatchHere (lit : Str) (prev : Option Char) (s : Str) : Bool :=
  (s.take lit.length == lit) &&
  (optWord prev != optWord (headOpt s)) &&
  (optWord (getOpt s (lit.length - 1)) != optWord (getOpt s lit.length))

def scanWB (lit : Str) : Option Char → Str → Bool
  | _, [] => false
  | prev, s@(c :: rest) => wbMatchHere lit prev s || scanWB lit (some c) rest

/-- `/\blit\b/.test(text)`. -/
def containsWB (lit : Str) (t : Str) : Bool := scanWB lit none t

/-- `/\bCHF\b|\bSwiss\b|\bSchweiz\b/.test(t)` -/
def chfTest (t : Str) : Bool :=
  containsWB "CHF".data t || containsWB "Swiss".data t || containsWB "Schweiz".data t

/-- `/\$|\bUSD\b|\bUS\$\b/.test(t)` -/
def usdTest (t : Str) : Bool :=
  t.contains '$' || containsWB "USD".data t || containsWB "US$".data t

/-- `/€|\bEUR\b/.test(t)` -/
def eurTest (t : Str) : Bool := t.contains '€' || containsWB "EUR".data t

/-- `/£|\bGBP\b/.test(t)` -/
def gbpTest (t : Str) : Bool := t.contains '£' || containsWB "GBP".data t

def cadTest (t : Str) : Bool := containsWB "CAD".data t

def audTest (t : Str) : Bool := containsWB "AUD".data t

/-- `extractCurrency`: the patterns are tested in object-literal insertion
order CHF, USD, EUR, GBP, CAD, AUD; default "USD". -/
def extractCurrency (t : Str) : Str :=
  if chfTest t then "CHF".data
  else if usdTest t then "USD".data
  else if eurTest t then "EUR".data
  else if gbpTest t then "GBP".data
  else if cadTest t then "CAD".data
  else if audTest t then "AUD".data
  else "USD".data

/-! ### `extractItems` (ai.service.ts lines 307-329) -/

structure Item where
  item_name : Str
  item_cost : ℚ
deriving DecidableEq, Repr

/-- The alternatives of the optional group `(?:CHF|USD|EUR|£|\$)` in written order. -/
def currencyMarks : List Str :=
  ["CHF".data, "USD".data, "EUR".data, "£".data, "$".data]

def natOfDigits (ds : Str) : ℕ :=
  ds.foldl (fun n c => 10 * n + (c.toNat - '0'.toNat)) 0

/-- `\s*(\d+[.,]\d{2})` anchored at the start of `s`.  The `\s*` and `\d+`
runs are maximal: shortening `\s*` leaves whitespace where a digit must
stand, and shortening `\d+` leaves a digit where `[.,]` must stand, so no
backtracking into them can succeed.  Returns the matched text and the
numerator `n` of the parsed price `n / 100` (`parseFloat` after the comma
is normalised to a dot). -/
def matchPriceCore (s : Str) : Option (Str × ℕ) :=
  let w := s.takeWhile jsWsChar
  let rest := s.dropWhile jsWsChar
  let ds := rest.takeWhile Char.isDigit
  let rest2 := rest.dropWhile Char.isDigit
  if ds.isEmpty then none
  else
    match rest2 with
    | sep :: c1 :: c2 :: _ =>
      if (sep = '.' || sep = ',') && c1.isDigit && c2.isDigit then
        some (w ++ ds ++ [sep, c1, c2],
              natOfDigits ds * 100 + (10 * (c1.toNat - '0'.toNat) + (c2.toNat - '0'.toNat)))
      else none
    | _ => none

/-- `/(?:CHF|USD|EUR|£|\$)?\s*(\d+[.,]\d{2})/` anchored at the start of `s`:
the currency alternatives are tried in order, then the empty reading. -/
def matchPriceAt (s : Str) : Option (Str × ℕ) :=
  (currencyMarks.findSome? (fun p =>
    if startsWithS p s then
      (matchPriceCore (s.drop p.length)).map (fun r => (p ++ r.1, r.2))
    else none))
  <|> matchPriceCore s

/-- `line.match(...)`: leftmost match of the price pattern. -/
def findPrice : Str → Option (Str × ℕ)
  | [] => matchPriceAt []
  | s@(_ :: rest) => (matchPriceAt s) <|> findPrice rest

/-- The alternatives of `/^(TOTAL|TAX|SUBTOTAL|BALANCE|MwSt|VAT)/i`. -/
def aggregateKeywords : List Str :=
  ["TOTAL".data, "TAX".data, "SUBTOTAL".data, "BALANCE".data, "MwSt".data, "VAT".data]

/-- `line.replace(matched, '')` for a plain string pattern: remove the first
occurrence of `pat`. -/
def removeFirstOcc (pat : Str) : Str → Str
  | [] => []
  | s@(c :: cs) => if startsWithS pat s then s.drop pat.length else c :: removeFirstOcc pat cs

/-- The per-line body of the `extractItems` loop (without the last-line
index guard): price match, name clean-up, name filter. -/
def itemFromLine (line : Str) : Option Item :=
  match findPrice line with
  | none => none
  | some (m, n) =>
    let nm := jsTrim (removeFirstOcc m line)
    if !nm.isEmpty && decide (nm.length > 2) &&
        !aggregateKeywords.any (fun k => ciStartsWith k nm) then
      some ⟨nm, (n : ℚ) / 100⟩
    else none

/-- `extractItems`: the loop guard `index < lines.length - 1` admits every
line except the last, hence `dropLast`; an empty result is replaced by the
sentinel item. -/
def extractItems (lines : List Str) : List Item :=
  match lines.dropLast.filterMap itemFromLine with
  | [] => [⟨"General Items".data, 0⟩]
  | items => items

/-! ### `calculateTotals` (ai.service.ts lines 331-343) -/

/-- `Math.round`. -/
def jsRound (x : ℚ) : ℤ := ⌊x + 1/2⌋

/-- `Math.round(x * 100) / 100`. -/
def round2 (x : ℚ) : ℚ := (jsRound (x * 100) : ℚ) / 100

def itemsSubtotal (items : List Item) : ℚ := (items.map Item.item_cost).sum

def calculateTotals (items : List Item) : ℚ × ℚ :=
  let subtotal := itemsSubtotal items
  let tax := subtotal * (1/10)
  let total := subtotal + tax
  (round2 tax, round2 total)

/-! ### `parseReceiptText` (ai.service.ts lines 215-243) -/

structure ExtractedReceiptData where
  date : Str
  currency : Str
  vendor_name : Str
  receipt_items : List Item
  tax : ℚ
  total : ℚ
deriving DecidableEq, Repr

/-- `text.split('\n').filter(line => line.trim())`. -/
def linesOf (text : Str) : List Str :=
  (splitOnChar '\n' text).filter (fun l => !(jsTrim l).isEmpty)

def parseReceiptText (today : Str) (text : Str) : ExtractedReceiptData :=
  let lines := linesOf text
  let vendorName := extractVendorName lines
  let date := extractDate today text
  let currency := extractCurrency text
  let items := extractItems lines
  let totals := calculateTotals items
  { date := date, currency := currency, vendor_name := vendorName,
    receipt_items := items, tax := totals.1, total := totals.2 }

/-! ### `validateAndTransformGptResponse` (ai.service.ts lines 165-193)

The input is whatever `JSON.parse` produced, so it is modelled by a JSON
value type.  JS property access `data.field` yields `undefined` (here:
`none`) on a non-object primitive, but throws on `null`; `x || d` keeps a
truthy `x` of any type, which is why the output record's `date`, `currency`,
`vendor_name` and item names stay JSON-typed. -/

inductive Json where
  | null
  | bool (b : Bool)
  | num (q : ℚ)
  | str (s : Str)
  | arr (elems : List Json)
  | obj (fields : List (Str × Json))
deriving Repr

def Json.isNull : Json → Bool
  | .null => true
  | _ => false

/-- JS truthiness of a JSON value (`undefined` is handled by `truthyOpt`). -/
def truthy : Json → Bool
  | .null => false
  | .bool b => b
  | .num q => !(q == 0)
  | .str s => !s.isEmpty
  | .arr _ => true
  | .obj _ => true

def truthyOpt : Option Json → Bool
  | none => false
  | some j => truthy j

/-- Property lookup on an object's field list (parsed JSON objects have
unique keys, the last duplicate winning at parse time). -/
def getField (fields : List (Str × Json)) (k : Str) : Option Json :=
  match fields.find? (fun f => f.1 == k) with
  | some f => some f.2
  | none => none

/-- `data.field` : `undefined` on non-objects, the field (or `undefined`) on
objects.  The `null` case is excluded by the callers, which model the access
on `null` as a thrown `TypeError`. -/
def jsGet (data : Json) (k : Str) : Option Json :=
  match data with
  | .obj fs => getField fs k
  | _ => none

/-- `x || d`. -/
def jsOrJson (v : Option Json) (d : Json) : Json :=
  match v with
  | some j => if truthy j then j else d
  | none => d

/-- `typeof x === 'number' ? x : 0`. -/
def numOr0 (v : Option Json) : ℚ :=
  match v with
  | some (.num q) => q
  | _ => 0

structure GptItem where
  item_name : Json
  item_cost : ℚ
deriving Repr

structure GptRecord where
  date : Json
  currency : Json
  vendor_name : Json
  receipt_items : List GptItem
  tax : ℚ
  total : ℚ
deriving Repr

/-- The arrow-function body of `receipt_items.map(...)`; property access on
a `null` element throws (the error is caught upstream and turns into a
backend failure). -/
def coerceGptItem (j : Json) : Except Unit GptItem :=
  match j with
  | .null => .error ()
  | _ => .ok { item_name := jsOrJson (jsGet j "item_name".data) (.str "Unknown Item".data),
               item_cost := numOr0 (jsGet j "item_cost".data) }

def mapItems : List Json → Except Unit (List GptItem)
  | [] => .ok []
  | j :: js =>
    match coerceGptItem j with
    | .error e => .error e
    | .ok it =>
      match mapItems js with
      | .error e => .error e
      | .ok rest => .ok (it :: rest)

def gptSentinelItems : List GptItem :=
  [{ item_name := .str "General Items".data, item_cost := 0 }]

def gptItemsSubtotal (items : List GptItem) : ℚ := (items.map GptItem.item_cost).sum

/-- The `receipt_items` coercion: `Array.isArray(data.receipt_items)` selects
the element-wise map, anything else the sentinel single item. -/
def gptItems0 (data : Json) : Except Unit (List GptItem) :=
  match jsGet data "receipt_items".data with
  | some (.arr l) => mapItems l
  | _ => .ok gptSentinelItems

/-- The field-by-field record assembly of `validateAndTransformGptResponse`,
given the already-coerced items: empty items replaced by the sentinel, then
`total` recomputed as subtotal + tax when it is exactly 0 and items are
non-empty. -/
def gptAssemble (todayISO : Str) (data : Json) (items0 : List GptItem) : GptRecord :=
  let itemsFixed := if items0.isEmpty then gptSentinelItems else items0
  let tax := numOr0 (jsGet data "tax".data)
  let total0 := numOr0 (jsGet data "total".data)
  let total :=
    if total0 == 0 && !itemsFixed.isEmpty then gptItemsSubtotal itemsFixed + tax
    else total0
  { date := jsOrJson (jsGet data "date".data) (.str todayISO),
    currency := jsOrJson (jsGet data "currency".data) (.str "USD".data),
    vendor_name := jsOrJson (jsGet data "vendor_name".data) (.str "Unknown Vendor".data),
    receipt_items := itemsFixed, tax := tax, total := total }

/-- `validateAndTransformGptResponse`; `todayISO` stands for
`new Date().toISOString().split('T')[0]`.  Property access on `null` input
throws (caught upstream as a backend failure). -/
def validateAndTransformGptResponse (todayISO : Str) (data : Json) : Except Unit GptRecord :=
  match data with
  | .null => .error ()
  | _ =>
    match gptItems0 data with
    | .error e => .error e
    | .ok items0 => .ok (gptAssemble todayISO data items0)

/-! ### The extraction orchestrator `extractReceiptData` (ai.service.ts
lines 63-94) and its backends.

The remote calls are modelled by an environment: `gpt = none` / `vision =
none` mean the corresponding client was never initialised (no credentials),
`some (.error _)` a failing call (or unparsable response), `some (.ok _)` a
successful one.  The text parser's output embeds into the GPT-shaped record
with every string wrapped as a JSON string, which is what those values are
in JS. -/

structure AiEnv where
  gpt : Option (Except Unit Json)
  vision : Option (Except Unit Str)
  tesseract : Except Unit Str
  todayLocale : Str
  todayISO : Str

/-- The hard-coded record returned when the Tesseract pass itself throws
(ai.service.ts lines 368-376). -/
def minimalFallbackRecord (todayLocale : Str) : ExtractedReceiptData :=
  { date := todayLocale, currency := "USD".data,
    vendor_name := "Unknown Vendor (OCR failed)".data,
    receipt_items := [⟨"Receipt Items".data, 0⟩], tax := 0, total := 0 }

def toGptRecord (d : ExtractedReceiptData) : GptRecord :=
  { date := .str d.date, currency := .str d.currency, vendor_name := .str d.vendor_name,
    receipt_items := d.receipt_items.map
      (fun it => { item_name := .str it.item_name, item_cost := it.item_cost }),
    tax := d.tax, total := d.total }

/-- `extractWithGpt4Vision`: a failing call / missing content / unparsable
JSON / throwing validation all surface as a thrown error. -/
def extractWithGpt4Vision (todayISO : Str) (g : Except Unit Json) : Except Unit GptRecord :=
  match g with
  | .error e => .error e
  | .ok j =>
    match validateAndTransformGptResponse todayISO j with
    | .ok r => .ok r
    | .error e => .error e

/-- `extractWithVisionApi`: OCR text (possibly empty) fed to the text parser;
fails only if the remote call fails. -/
def extractWithVisionApi (todayLocale : Str) (v : Except Unit Str) : Except Unit GptRecord :=
  match v with
  | .error e => .error e
  | .ok text => .ok (toGptRecord (parseReceiptText todayLocale text))

/-- `fallbackParsing` (ai.service.ts lines 345-378): its own try/catch makes
it total — an OCR failure yields the hard-coded minimal record. -/
def fallbackParsing (env : AiEnv) : Except Unit GptRecord :=
  match env.tesseract with
  | .ok text => .ok (toGptRecord (parseReceiptText env.todayLocale text))
  | .error _ => .ok (toGptRecord (minimalFallbackRecord env.todayLocale))

/-- A `try { return x } catch { ... }` step: keep a success, recover a
failure with the fallback. -/
def orElseFallback (x : Except Unit GptRecord) (fb : Except Unit GptRecord) :
    Except Unit GptRecord :=
  match x with
  | .ok r => .ok r
  | .error _ => fb

/-- The part of `extractReceiptData` after the GPT attempt: the Vision
attempt (if a client exists, its failure caught), then the Tesseract
fallback. -/
def extractAfterGpt (env : AiEnv) : Except Unit GptRecord :=
  match env.vision with
  | some v => orElseFallback (extractWithVisionApi env.todayLocale v) (fallbackParsing env)
  | none => fallbackParsing env

/-- The try-block of `extractReceiptData`: GPT first when a client exists
(one attempt, failure caught and logged), then the rest of the chain. -/
def extractBody (env : AiEnv) : Except Unit GptRecord :=
  match env.gpt with
  | some g => orElseFallback (extractWithGpt4Vision env.todayISO g) (extractAfterGpt env)
  | none => extractAfterGpt env

/-- `extractReceiptData`: the priority chain inside a try whose catch also
lands in `fallbackParsing`. -/
def extractReceiptData (env : AiEnv) : Except Unit GptRecord :=
  orElseFallback (extractBody env) (fallbackParsing env)

end AiService

/-! ## The upload / persistence pipeline

`StorageService` (storage.service.ts) and `ReceiptService`
(receipt.service.ts), with the file system and the database modelled as an
explicit state and a log of the calls the services make. -/

namespace Pipeline

open AiService

inductive Fault where
  | client
  | server
deriving DecidableEq, Repr

inductive Ev where
  | writeE (path : Str)
  | aiCall
  | persistE (id : Str)
  | removeE (id : Str)
  | deleteImageCall (url : Str)
  | imageMarked (filename : Str)
  | imageDeleteFailed (url : Str)
deriving DecidableEq, Repr

structure ReceiptRow where
  id : Str
  date : Str
  currency : Str
  vendor_name : Str
  receipt_items : List Item
  tax : ℚ
  total : ℚ
  image_url : Str
deriving DecidableEq, Repr

/-- `fs` is the set of stored file paths, `db` the persisted records, `log`
the observable calls. -/
structure SysState where
  fs : List Str
  db : List ReceiptRow
  log : List Ev
deriving DecidableEq, Repr

structure UploadFile where
  originalname : Str
  mimetype : Str
  size : ℕ
  bufferLen : ℕ
deriving DecidableEq, Repr

def maxFileSize : ℕ := 10 * 1024 * 1024

def allowedExtensions : List Str := [".jpg".data, ".jpeg".data, ".png".data]

def allowedMimeTypes : List Str := ["image/jpeg".data, "image/jpg".data, "image/png".data]

/-- `extname(name).toLowerCase()`: the substring from the last dot
(empty when there is no dot), lower-cased. -/
def extnameLower (name : Str) : Str :=
  match splitOnChar '.' name with
  | [] => []
  | [_] => []
  | parts => ('.' :: parts.getLastD []).map lowerCh

/-- `StorageService.validateFile` (storage.service.ts lines 46-73): size,
extension, MIME type, non-empty buffer — each violation a
`BadRequestException` (client fault). -/
def validateFile (f : UploadFile) : Except Fault Unit :=
  if maxFileSize < f.size then .error .client
  else if !(allowedExtensions.contains (extnameLower f.originalname)) then .error .client
  else if !(allowedMimeTypes.contains f.mimetype) then .error .client
  else if f.bufferLen = 0 then .error .client
  else .ok ()

/-- Environment of a `saveImage` call: the generated uuid and the outcomes
of the file-system operations. -/
structure StorageEnv where
  uuid : Str
  dirAccessOk : Bool
  mkdirOk : Bool
  writeOk : Bool
deriving DecidableEq, Repr

/-- `StorageService.saveImage` (storage.service.ts lines 14-44): validate,
ensure directory, write under `uuid + extension`, return `/uploads/<name>`;
the catch rethrows a `BadRequestException` and maps any other failure to an
`InternalServerErrorException` (server fault). -/
def saveImage (env : StorageEnv) (f : UploadFile) (s : SysState) :
    Except Fault Str × SysState :=
  match validateFile f with
  | .error e => (.error e, s)
  | .ok _ =>
    if !env.dirAccessOk && !env.mkdirOk then (.error .server, s)
    else
      let filename := env.uuid ++ extnameLower f.originalname
      let filepath := "uploads/".data ++ filename
      if env.writeOk then
        (.ok ("/uploads/".data ++ filename),
         { s with fs := s.fs ++ [filepath], log := s.log ++ [.writeE filepath] })
      else (.error .server, s)

def lastSeg (url : Str) : Str := (splitOnChar '/' url).getLastD []

/-- `StorageService.deleteImage` (storage.service.ts lines 90-102): takes the
final path segment, checks the file exists, and only *logs* that the image is
marked for deletion — the source imports no removal primitive and the stored
file is left in place; any error is caught and logged, never thrown. -/
def deleteImage (url : Str) (s : SysState) : SysState :=
  let s1 := { s with log := s.log ++ [.deleteImageCall url] }
  let fn := lastSeg url
  if fn.isEmpty then s1
  else if s1.fs.contains ("uploads/".data ++ fn) then
    { s1 with log := s1.log ++ [.imageMarked fn] }
  else
    { s1 with log := s1.log ++ [.imageDeleteFailed url] }

/-- `ReceiptService.isValidImageFile` (receipt.service.ts lines 690-693). -/
def isValidImageFile (f : UploadFile) : Bool :=
  allowedMimeTypes.contains f.mimetype

/-- `ReceiptService.isValidAiResponse` (receipt.service.ts lines 695-708):
truthiness of the string fields, non-empty items, non-negative tax and
total (the `typeof` checks hold by typing here). -/
def isValidAiResponse (d : ExtractedReceiptData) : Bool :=
  !d.date.isEmpty && !d.currency.isEmpty && !d.vendor_name.isEmpty &&
  decide (d.receipt_items.length > 0) && decide (0 ≤ d.tax) && decide (0 ≤ d.total)

structure ResponseDto where
  id : Str
  date : Str
  currency : Str
  vendor_name : Str
  receipt_items : List Item
  tax : ℚ
  total : ℚ
  image_url : Str
deriving DecidableEq, Repr

def mapToResponseDto (r : ReceiptRow) : ResponseDto :=
  { id := r.id, date := r.date, currency := r.currency, vendor_name := r.vendor_name,
    receipt_items := r.receipt_items, tax := r.tax, total := r.total,
    image_url := r.image_url }

/-- The tail of `ReceiptService.extractReceiptDetails` after a successful
image save: AI call (logged), AI-response validation with compensating
image deletion, entity creation and save. -/
def afterSave (ai : Except Unit ExtractedReceiptData) (dbSaveOk : Bool) (newId : Str)
    (imageUrl : Str) (s1 : SysState) : Except Fault ResponseDto × SysState :=
  let s2 := { s1 with log := s1.log ++ [.aiCall] }
  match ai with
  | .error _ => (.error .server, s2)
  | .ok data =>
    if !isValidAiResponse data then
      (.error .server, deleteImage imageUrl s2)
    else
      let row : ReceiptRow :=
        { id := newId, date := data.date, currency := data.currency,
          vendor_name := data.vendor_name, receipt_items := data.receipt_items,
          tax := data.tax, total := data.total, image_url := imageUrl }
      if dbSaveOk then
        (.ok (mapToResponseDto row),
         { s2 with db := s2.db ++ [row], log := s2.log ++ [.persistE newId] })
      else (.error .server, s2)

/-- `ReceiptService.extractReceiptDetails` (receipt.service.ts lines
580-629).  `ai` is the outcome of the AI orchestrator call, `dbSaveOk`
whether the repository save succeeds, `newId` the id the database generates.
The catch classifies: `BadRequestException` / `InternalServerErrorException`
are rethrown unchanged, anything else becomes a server fault. -/
def extractReceiptDetails (env : StorageEnv) (ai : Except Unit ExtractedReceiptData)
    (dbSaveOk : Bool) (newId : Str) (f : UploadFile) (s : SysState) :
    Except Fault ResponseDto × SysState :=
  if !isValidImageFile f then (.error .client, s)
  else
    match saveImage env f s with
    | (.error e, s1) => (.error e, s1)
    | (.ok imageUrl, s1) => afterSave ai dbSaveOk newId imageUrl s1

/-- `receiptRepository.findOne({ where: { id } })`. -/
def findOne (s : SysState) (id : Str) : Option ReceiptRow :=
  s.db.find? (fun r => r.id == id)

/-- `ReceiptService.deleteReceipt` (receipt.service.ts lines 664-688):
missing id is a client fault; otherwise the image-deletion operation is
invoked with the record's stored URL (it never throws), then the record is
removed; a repository failure becomes a server fault. -/
def deleteReceipt (id : Str) (dbRemoveOk : Bool) (s : SysState) :
    Except Fault Unit × SysState :=
  match findOne s id with
  | none => (.error .client, s)
  | some r =>
    let s1 := deleteImage r.image_url s
    if dbRemoveOk then
      let s2 : SysState :=
        { s1 with db := s1.db.filter (fun x => !(x.id == r.id)),
                  log := s1.log ++ [.removeE r.id] }
      (.ok (), s2)
    else (.error .server, s1)

def countDeleteCalls (log : List Ev) (url : Str) : ℕ :=
  (log.filter (fun e => e == Ev.deleteImageCall url)).length

end Pipeline

/-! ## Helper lemmas -/

namespace AiService

theorem dropWhile_head_false (p : Char → Bool) :
    ∀ (s : Str) (c : Char) (t : Str), s.dropWhile p = c :: t → p c = false := by
  intro s
  induction s with
  | nil => intro c t h; simp [List.dropWhile] at h
  | cons a as ih =>
    intro c t h
    by_cases ha : p a
    · rw [List.dropWhile_cons_of_pos ha] at h
      exact ih c t h
    · rw [List.dropWhile_cons_of_neg ha] at h
      injection h with h1 _
      subst h1
      simpa using ha

theorem append_singleton_dropWhile (p : Char → Bool) (c : Char) (hc : p c = false) :
    ∀ l : Str, (l ++ [c]).dropWhile p =
      if (l.dropWhile p).isEmpty then [c] else l.dropWhile p ++ [c] := by
  intro l
  induction l with
  | nil => simp [List.dropWhile, hc]
  | cons a as ih =>
    by_cases ha : p a
    · simpa [List.dropWhile_cons_of_pos ha] using ih
    · simp [List.dropWhile_cons_of_neg ha]

theorem trimRight_cons (c : Char) (hc : jsWsChar c = false) (t : Str) :
    ∃ u, trimRight (c :: t) = c :: u := by
  unfold trimRight
  rw [show (c :: t).reverse = t.reverse ++ [c] by simp]
  rw [append_singleton_dropWhile jsWsChar c hc]
  by_cases h : (t.reverse.dropWhile jsWsChar).isEmpty
  · exact ⟨[], by simp [h]⟩
  · exact ⟨(t.reverse.dropWhile jsWsChar).reverse, by simp [h]⟩

theorem jsTrim_shape (s : Str) :
    jsTrim s = [] ∨ ∃ c u, jsTrim s = c :: u ∧ jsWsChar c = false := by
  cases h : trimLeft s with
  | nil => exact Or.inl (by simp [jsTrim, h, trimRight])
  | cons c t =>
    have hc : jsWsChar c = false := dropWhile_head_false jsWsChar s c t h
    obtain ⟨u, hu⟩ := trimRight_cons c hc t
    exact Or.inr ⟨c, u, by rw [jsTrim, h, hu], hc⟩

theorem collapseWsGo_cons_false (b : Bool) (c : Char) (cs : Str) (hc : jsWsChar c = false) :
    collapseWsGo b (c :: cs) = c :: collapseWsGo false cs := by
  simp [collapseWsGo, hc]

theorem stripVendorSuffix_cons_ne_nil (c : Char) (t : Str) (hc : jsWsChar c = false) :
    stripVendorSuffix (c :: t) ≠ [] := by
  unfold stripVendorSuffix
  cases h : findSuffixPos (c :: t) with
  | none => simp
  | some i =>
    by_cases hm : suffixEndMatch (c :: t)
    · have : jsWsChar c = true := by
        have := hm
        unfold suffixEndMatch at this
        exact (Bool.and_eq_true _ _).mp this |>.1
      simp [this] at hc
    · rw [findSuffixPos, if_neg hm] at h
      obtain ⟨j, _, rfl⟩ := Option.map_eq_some'.mp h
      simp

theorem cleanVendor_ne_nil (c : Char) (u : Str) (hc : jsWsChar c = false) :
    cleanVendor (c :: u) ≠ [] := by
  unfold cleanVendor collapseWs
  rw [collapseWsGo_cons_false false c u hc]
  have h1 : trimLeft (c :: collapseWsGo false u) = c :: collapseWsGo false u := by
    unfold trimLeft
    exact List.dropWhile_cons_of_neg (by simp [hc])
  obtain ⟨w, hw⟩ := trimRight_cons c hc (collapseWsGo false u)
  rw [jsTrim, h1, hw]
  exact stripVendorSuffix_cons_ne_nil c w hc

theorem vendorScan_ne_nil : ∀ (ls : List Str) (fuel : ℕ), vendorScan ls fuel ≠ [] := by
  intro ls
  induction ls with
  | nil =>
    intro fuel
    cases fuel with
    | zero => simp [vendorScan]
    | succ k => simp [vendorScan]
  | cons l rest ih =>
    intro fuel
    cases fuel with
    | zero => simp [vendorScan]
    | succ k =>
      rw [vendorScan]
      by_cases hc : vendorCandidate (jsTrim l)
      · rw [if_pos hc]
        have hne : jsTrim l ≠ [] := by
          intro hnil
          unfold vendorCandidate at hc
          rw [hnil] at hc
          simp at hc
        rcases jsTrim_shape l with h | ⟨c, u, hcu, hws⟩
        · exact absurd h hne
        · rw [hcu]
          exact cleanVendor_ne_nil c u hws
      · rw [if_neg hc]
        exact ih k

theorem extractVendorName_ne_nil (lines : List Str) : extractVendorName lines ≠ [] :=
  vendorScan_ne_nil lines 5

theorem extractCurrency_ne_nil (t : Str) : extractCurrency t ≠ [] := by
  unfold extractCurrency
  split_ifs <;> decide

theorem itemFromLine_cost (l : Str) (it : Item) (h : itemFromLine l = some it) :
    ∃ n : ℕ, it.item_cost = (n : ℚ) / 100 := by
  unfold itemFromLine at h
  split at h
  · simp at h
  · rename_i ms n hfp
    simp only [] at h
    split at h
    · rw [Option.some.injEq] at h
      exact ⟨n, by rw [← h]⟩
    · simp at h

/-- Every member of `extractItems lines` is the sentinel or comes from a line. -/
theorem mem_extractItems (ls : List Str) (it : Item) (hit : it ∈ extractItems ls) :
    it = ⟨"General Items".data, 0⟩ ∨ it ∈ ls.dropLast.filterMap itemFromLine := by
  unfold extractItems at hit
  split at hit
  · left; simpa using hit
  · right; exact hit

theorem extractItems_cost_nonneg (ls : List Str) :
    ∀ it ∈ extractItems ls, 0 ≤ it.item_cost := by
  intro it hit
  rcases mem_extractItems ls it hit with h | h
  · rw [h]
  · obtain ⟨l, _, hl⟩ := List.mem_filterMap.mp h
    obtain ⟨n, hn⟩ := itemFromLine_cost l it hl
    rw [hn]
    positivity

theorem extractItems_ne_nil (ls : List Str) : extractItems ls ≠ [] := by
  unfold extractItems
  split
  · simp
  · rename_i h
    exact h

theorem itemsSubtotal_nonneg (items : List Item)
    (h : ∀ it ∈ items, 0 ≤ it.item_cost) : 0 ≤ itemsSubtotal items := by
  apply List.sum_nonneg
  intro x hx
  obtain ⟨it, hit, rfl⟩ := List.mem_map.mp hx
  exact h it hit

theorem round2_nonneg (x : ℚ) (hx : 0 ≤ x) : 0 ≤ round2 x := by
  rw [round2, jsRound]
  have h1 : (0 : ℤ) ≤ ⌊x + 1/2⌋ := by
    apply Int.le_floor.mpr
    push_cast
    linarith
  have h2 : (0 : ℚ) ≤ (⌊x + 1/2⌋ : ℚ) := by exact_mod_cast h1
  positivity

theorem round2_close (x : ℚ) : |round2 x - x| ≤ 1 / 200 := by
  have h1 : ((⌊x * 100 + 1/2⌋ : ℤ) : ℚ) ≤ x * 100 + 1/2 := Int.floor_le _
  have h2 : x * 100 + 1/2 - 1 < ((⌊x * 100 + 1/2⌋ : ℤ) : ℚ) := Int.sub_one_lt_floor _
  rw [round2, jsRound, abs_le]
  constructor <;> linarith

end AiService

/-! ## The claims -/

namespace Claims

open AiService Pipeline

/-- Claim C2: for every raw text input (any string, including the empty
one), `parseReceiptText` returns a record with at least one item,
non-negative tax, total within rounding tolerance (1/100, from the two
2-decimal roundings) of the item-cost sum plus tax, and non-empty vendor
name and currency code. -/
theorem claim_C2 (today text : Str) :
    1 ≤ (parseReceiptText today text).receipt_items.length ∧
    0 ≤ (parseReceiptText today text).tax ∧
    |(parseReceiptText today text).total -
        (itemsSubtotal (parseReceiptText today text).receipt_items +
          (parseReceiptText today text).tax)| ≤ 1 / 100 ∧
    (parseReceiptText today text).vendor_name ≠ [] ∧
    (parseReceiptText today text).currency ≠ [] := by
  have hitems : (parseReceiptText today text).receipt_items = extractItems (linesOf text) := rfl
  have htax : (parseReceiptText today text).tax =
      round2 (itemsSubtotal (extractItems (linesOf text)) * (1/10)) := rfl
  have htotal : (parseReceiptText today text).total =
      round2 (itemsSubtotal (extractItems (linesOf text)) +
        itemsSubtotal (extractItems (linesOf text)) * (1/10)) := rfl
  have hS : 0 ≤ itemsSubtotal (extractItems (linesOf text)) :=
    itemsSubtotal_nonneg _ (extractItems_cost_nonneg (linesOf text))
  refine ⟨?_, ?_, ?_, ?_, ?_⟩
  · rw [hitems]
    exact List.length_pos.mpr (extractItems_ne_nil (linesOf text))
  · rw [htax]
    exact round2_nonneg _ (by linarith)
  · rw [hitems, htax, htotal]
    have hA := round2_close (itemsSubtotal (extractItems (linesOf text)) +
      itemsSubtotal (extractItems (linesOf text)) * (1/10))
    have hB := round2_close (itemsSubtotal (extractItems (linesOf text)) * (1/10))
    rw [abs_le] at hA hB ⊢
    constructor <;> linarith [hA.1, hA.2, hB.1, hB.2]
  · exact extractVendorName_ne_nil (linesOf text)
  · exact extractCurrency_ne_nil text

/-- Claim C4: the totals of every parse are computed from the extracted
items alone — `tax = round2(subtotal * 0.1)` and
`total = round2(subtotal + tax_unrounded)` with `subtotal` the sum of the
item costs.  No tax or total figure is read from the text: the values are
this fixed function of the items for every input. -/
theorem claim_C4 (today text : Str) :
    (parseReceiptText today text).tax =
      round2 (itemsSubtotal (parseReceiptText today text).receipt_items * (1/10)) ∧
    (parseReceiptText today text).total =
      round2 (itemsSubtotal (parseReceiptText today text).receipt_items +
        itemsSubtotal (parseReceiptText today text).receipt_items * (1/10)) :=
  ⟨rfl, rfl⟩

def c3Text : Str := "Test Store\n123 Main St\nDate: 2024-01-15\nItem: Test Item $10.99".data

/-- Counterexample to claim C3: on the scenario text the single returned
item is the hard-coded sentinel `{General Items, 0}` — it does not carry
the `$10.99` price of the last line, because `extractItems` never takes an
item from the last line (`index < lines.length - 1`). -/
theorem claim_C3_counterexample :
    (parseReceiptText [] c3Text).receipt_items = [⟨"General Items".data, 0⟩] ∧
    (⟨"General Items".data, 0⟩ : Item).item_cost ≠ (1099 : ℚ) / 100 := by
  constructor
  · rfl
  · norm_num

/-- Claim C3 as amended: on the scenario text the parser returns vendor
"Test Store" and currency "USD" as claimed, but its single item is the
sentinel `{General Items, 0}` (with tax and total 0), since the only
price-bearing line is the last line, which item extraction skips. -/
theorem claim_C3 (today : Str) :
    parseReceiptText today c3Text =
      { date := "24-01-15".data, currency := "USD".data,
        vendor_name := "Test Store".data,
        receipt_items := [⟨"General Items".data, 0⟩], tax := 0, total := 0 } := by
  have h : firstMatch matchP1At c3Text = some ("24-01-15".data) := by decide
  have hdate : extractDate today c3Text = "24-01-15".data := by
    unfold extractDate
    rw [h]
  have h1 : parseReceiptText today c3Text =
      { date := extractDate today c3Text,
        currency := extractCurrency c3Text,
        vendor_name := extractVendorName (linesOf c3Text),
        receipt_items := extractItems (linesOf c3Text),
        tax := (calculateTotals (extractItems (linesOf c3Text))).1,
        total := (calculateTotals (extractItems (linesOf c3Text))).2 } := rfl
  have hitems : extractItems (linesOf c3Text) = [⟨"General Items".data, 0⟩] := rfl
  have htax : (calculateTotals [(⟨"General Items".data, (0 : ℚ)⟩ : Item)]).1 = 0 := by
    show round2 (itemsSubtotal [⟨"General Items".data, 0⟩] * (1/10)) = 0
    norm_num [itemsSubtotal, round2, jsRound]
  have htotal : (calculateTotals [(⟨"General Items".data, (0 : ℚ)⟩ : Item)]).2 = 0 := by
    show round2 (itemsSubtotal [⟨"General Items".data, 0⟩] +
      itemsSubtotal [⟨"General Items".data, 0⟩] * (1/10)) = 0
    norm_num [itemsSubtotal, round2, jsRound]
  rw [h1, hdate, hitems, htax, htotal]
  decide

/-- Counterexample to claim C6: the text "CHFs" contains "CHF", yet
currency extraction returns "USD" — the CHF signature is the
word-boundary-delimited `/\bCHF\b/`, which the trailing `s` defeats. -/
theorem claim_C6_counterexample :
    containsSub "CHF".data "CHFs".data = true ∧
    extractCurrency "CHFs".data = "USD".data ∧
    "USD".data ≠ "CHF".data := by
  refine ⟨by decide, by decide, by decide⟩

/-- Claim C6 as amended: currency extraction returns "CHF" when the text
contains a word-boundary-delimited "CHF" (or "Swiss"/"Schweiz") token —
not merely the substring "CHF" — "USD" when it contains the character `$`,
"EUR" for `€`, "GBP" for `£`, honoring the fixed priority order
CHF > USD > EUR > GBP > CAD > AUD, and defaults to "USD" when no signature
matches. -/
theorem claim_C6 (t : Str) :
    (chfTest t = true → extractCurrency t = "CHF".data) ∧
    (chfTest t = false → t.contains '$' = true → extractCurrency t = "USD".data) ∧
    (chfTest t = false → usdTest t = false → t.contains '€' = true →
      extractCurrency t = "EUR".data) ∧
    (chfTest t = false → usdTest t = false → eurTest t = false → t.contains '£' = true →
      extractCurrency t = "GBP".data) ∧
    (chfTest t = false → usdTest t = false → eurTest t = false → gbpTest t = false →
      cadTest t = true → extractCurrency t = "CAD".data) ∧
    (chfTest t = false → usdTest t = false → eurTest t = false → gbpTest t = false →
      cadTest t = false → audTest t = true → extractCurrency t = "AUD".data) ∧
    (chfTest t = false → usdTest t = false → eurTest t = false → gbpTest t = false →
      cadTest t = false → audTest t = false → extractCurrency t = "USD".data) := by
  refine ⟨?_, ?_, ?_, ?_, ?_, ?_, ?_⟩
  · intro h1
    simp [extractCurrency, h1]
  · intro h1 h2
    have hm : '$' ∈ t := by simpa using h2
    have hu : usdTest t = true := by simp [usdTest, hm]
    simp [extractCurrency, h1, hu]
  · intro h1 h2 h3
    have hm : '€' ∈ t := by simpa using h3
    have he : eurTest t = true := by simp [eurTest, hm]
    simp [extractCurrency, h1, h2, he]
  · intro h1 h2 h3 h4
    have hm : '£' ∈ t := by simpa using h4
    have hg : gbpTest t = true := by simp [gbpTest, hm]
    simp [extractCurrency, h1, h2, h3, hg]
  · intro h1 h2 h3 h4 h5
    simp [extractCurrency, h1, h2, h3, h4, h5]
  · intro h1 h2 h3 h4 h5 h6
    simp [extractCurrency, h1, h2, h3, h4, h5, h6]
  · intro h1 h2 h3 h4 h5 h6
    simp [extractCurrency, h1, h2, h3, h4, h5, h6]

/-- Witness for C6: a concrete text with a word-delimited "CHF" token, via
`claim_C6`. -/
theorem claim_C6_witness : extractCurrency "Total: CHF 15.50".data = "CHF".data :=
  (claim_C6 "Total: CHF 15.50".data).1 (by decide)

theorem jsOrJson_of_falsy (v : Option Json) (d : Json) (h : truthyOpt v = false) :
    jsOrJson v d = d := by
  cases v with
  | none => rfl
  | some j =>
    rw [truthyOpt] at h
    rw [jsOrJson, if_neg (by simp [h])]

theorem numOr0_of_not_num (v : Option Json) (h : ∀ q, v ≠ some (.num q)) :
    numOr0 v = 0 := by
  cases v with
  | none => rfl
  | some j =>
    cases j with
    | num q => exact absurd rfl (h q)
    | null => rfl
    | bool b => rfl
    | str s => rfl
    | arr l => rfl
    | obj fs => rfl

theorem gptItems0_of_not_arr (data : Json)
    (h : ∀ l, jsGet data "receipt_items".data ≠ some (.arr l)) :
    gptItems0 data = .ok gptSentinelItems := by
  unfold gptItems0
  cases hg : jsGet data "receipt_items".data with
  | none => rfl
  | some j =>
    cases j with
    | arr l => exact absurd hg (h l)
    | null => rfl
    | bool b => rfl
    | num q => rfl
    | str s => rfl
    | obj fs => rfl

theorem ite_sentinel_ne_nil (items0 : List GptItem) :
    (if items0.isEmpty then gptSentinelItems else items0) ≠ [] := by
  split
  · simp [gptSentinelItems]
  · rename_i h
    simpa [List.isEmpty_iff] using h

theorem coerceGptItem_ok (j : Json) (it : GptItem) (h : coerceGptItem j = .ok it) :
    it.item_name = jsOrJson (jsGet j "item_name".data) (.str "Unknown Item".data) ∧
    it.item_cost = numOr0 (jsGet j "item_cost".data) := by
  unfold coerceGptItem at h
  split at h
  · exact absurd h (by simp)
  · rw [Except.ok.injEq] at h
    subst h
    exact ⟨rfl, rfl⟩

/-- Counterexample to claim C5: a JSON object whose `currency` is the number
5 (non-string, truthy) keeps that number — it is not coerced to "USD",
because the code uses `data.currency || 'USD'`, which only replaces falsy
values. -/
theorem claim_C5_counterexample :
    validateAndTransformGptResponse []
        (Json.obj [("currency".data, Json.num 5), ("total".data, Json.num 3)]) =
      .ok { date := Json.str [], currency := Json.num 5,
            vendor_name := Json.str "Unknown Vendor".data,
            receipt_items := gptSentinelItems, tax := 0, total := 3 } ∧
    ∀ s : Str, Json.num 5 ≠ Json.str s := by
  constructor
  · rfl
  · intro s h
    exact Json.noConfusion h

/-- Claim C5 as amended: for every JSON object accepted by the
validation/coercion step, a falsy (missing, null, empty-string, 0 or false)
`date` becomes the current ISO date, a falsy `currency` becomes "USD" and a
falsy `vendor_name` becomes "Unknown Vendor" (truthy non-string values are
kept as-is, not coerced); a non-array `receipt_items` becomes the single
sentinel item, an array is coerced element-wise with an empty result
replaced by the sentinel; each item gets `'Unknown Item'` for a falsy name
and cost 0 for a non-numeric cost; a non-numeric `tax` becomes 0; and when
the coerced `total` is exactly 0 (items being always non-empty at that
point) the total is recomputed as the item-cost sum plus tax, while a
non-zero numeric `total` is kept. -/
theorem claim_C5 (todayISO : Str) (fields : List (Str × Json)) (r : GptRecord)
    (h : validateAndTransformGptResponse todayISO (Json.obj fields) = .ok r) :
    (truthyOpt (getField fields "date".data) = false → r.date = .str todayISO) ∧
    (truthyOpt (getField fields "currency".data) = false → r.currency = .str "USD".data) ∧
    (truthyOpt (getField fields "vendor_name".data) = false →
      r.vendor_name = .str "Unknown Vendor".data) ∧
    ((∀ l, getField fields "receipt_items".data ≠ some (.arr l)) →
      r.receipt_items = gptSentinelItems) ∧
    (∀ l lst, getField fields "receipt_items".data = some (.arr l) → mapItems l = .ok lst →
      r.receipt_items = if lst.isEmpty then gptSentinelItems else lst) ∧
    ((∀ q, getField fields "tax".data ≠ some (.num q)) → r.tax = 0) ∧
    (numOr0 (getField fields "total".data) = 0 →
      r.total = gptItemsSubtotal r.receipt_items + r.tax) ∧
    (∀ q, getField fields "total".data = some (.num q) → q ≠ 0 → r.total = q) ∧
    (∀ j it, coerceGptItem j = .ok it →
      (truthyOpt (jsGet j "item_name".data) = false →
        it.item_name = .str "Unknown Item".data) ∧
      ((∀ q, jsGet j "item_cost".data ≠ some (.num q)) → it.item_cost = 0)) := by
  have hun : validateAndTransformGptResponse todayISO (Json.obj fields) =
      (match gptItems0 (Json.obj fields) with
       | .error e => .error e
       | .ok items0 => .ok (gptAssemble todayISO (Json.obj fields) items0)) := rfl
  rw [hun] at h
  cases hE : gptItems0 (Json.obj fields) with
  | error e => rw [hE] at h; simp at h
  | ok items0 =>
    rw [hE] at h
    simp only [Except.ok.injEq] at h
    subst h
    have hgf : ∀ k, jsGet (Json.obj fields) k = getField fields k := fun _ => rfl
    have hdate : (gptAssemble todayISO (Json.obj fields) items0).date =
        jsOrJson (getField fields "date".data) (.str todayISO) := rfl
    have hcur : (gptAssemble todayISO (Json.obj fields) items0).currency =
        jsOrJson (getField fields "currency".data) (.str "USD".data) := rfl
    have hven : (gptAssemble todayISO (Json.obj fields) items0).vendor_name =
        jsOrJson (getField fields "vendor_name".data) (.str "Unknown Vendor".data) := rfl
    have hitems : (gptAssemble todayISO (Json.obj fields) items0).receipt_items =
        (if items0.isEmpty then gptSentinelItems else items0) := rfl
    have htax : (gptAssemble todayISO (Json.obj fields) items0).tax =
        numOr0 (getField fields "tax".data) := rfl
    have htot : (gptAssemble todayISO (Json.obj fields) items0).total =
        (if (numOr0 (getField fields "total".data) == 0 &&
              !(if items0.isEmpty then gptSentinelItems else items0).isEmpty) = true then
          gptItemsSubtotal (if items0.isEmpty then gptSentinelItems else items0) +
            numOr0 (getField fields "tax".data)
        else numOr0 (getField fields "total".data)) := rfl
    refine ⟨?_, ?_, ?_, ?_, ?_, ?_, ?_, ?_, ?_⟩
    · intro hf; rw [hdate, jsOrJson_of_falsy _ _ hf]
    · intro hf; rw [hcur, jsOrJson_of_falsy _ _ hf]
    · intro hf; rw [hven, jsOrJson_of_falsy _ _ hf]
    · intro hf
      have h0 : gptItems0 (Json.obj fields) = .ok gptSentinelItems :=
        gptItems0_of_not_arr _ (by intro l; rw [hgf]; exact hf l)
      rw [hE] at h0
      rw [Except.ok.injEq] at h0
      rw [hitems, h0]
      simp [gptSentinelItems]
    · intro l lst hl hmap
      have h0 : gptItems0 (Json.obj fields) = .ok lst := by
        unfold gptItems0
        rw [hgf, hl]
        exact hmap
      rw [hE] at h0
      rw [Except.ok.injEq] at h0
      rw [hitems, h0]
    · intro hf
      rw [htax, numOr0_of_not_num _ hf]
    · intro hf
      rw [htot, htax, hitems]
      rcases hX : (if items0.isEmpty then gptSentinelItems else items0) with _ | ⟨a, as⟩
      · exact absurd hX (ite_sentinel_ne_nil items0)
      · rw [hf]
        rw [if_pos (by simp)]
    · intro q hq hq0
      rw [htot, hq]
      rw [if_neg (by simp [numOr0, hq0])]
      rfl
    · intro j it hj
      obtain ⟨hn, hc⟩ := coerceGptItem_ok j it hj
      constructor
      · intro hf; rw [hn, jsOrJson_of_falsy _ _ hf]
      · intro hf; rw [hc, numOr0_of_not_num _ hf]

def c5Fields : List (Str × Json) := [("total".data, Json.num 3)]

def c5Result : GptRecord :=
  { date := .str "2024-06-01".data, currency := .str "USD".data,
    vendor_name := .str "Unknown Vendor".data,
    receipt_items := gptSentinelItems, tax := 0, total := 3 }

/-- Witness for C5: a concrete object with no `date` field, via `claim_C5`. -/
theorem claim_C5_witness :
    truthyOpt (getField c5Fields "date".data) = false ∧
    c5Result.date = Json.str "2024-06-01".data := by
  refine ⟨by decide, ?_⟩
  exact (claim_C5 "2024-06-01".data c5Fields c5Result rfl).1 (by decide)

theorem fallbackParsing_ok (env : AiEnv) : ∃ r, fallbackParsing env = .ok r := by
  unfold fallbackParsing
  cases env.tesseract with
  | ok t => exact ⟨_, rfl⟩
  | error e => exact ⟨_, rfl⟩

theorem orElseFallback_ok (x fb : Except Unit GptRecord) (h : ∃ r, fb = .ok r) :
    ∃ r, orElseFallback x fb = .ok r := by
  cases x with
  | ok r => exact ⟨r, rfl⟩
  | error e => exact h

/-- Claim C1: the extraction orchestrator never fails — for every
environment (clients present or not, every call succeeding or throwing)
`extractReceiptData` returns a record; and when every attempted backend
fails — the GPT call never succeeds, the Vision call never succeeds, and
the terminal Tesseract pass itself throws — the result is exactly the
hard-coded minimal record (vendor "Unknown Vendor (OCR failed)", the
current locale date, currency "USD", the one sentinel item, tax 0,
total 0). -/
theorem claim_C1 (env : AiEnv) :
    (∃ r, extractReceiptData env = .ok r) ∧
    ((∀ j, env.gpt ≠ some (.ok j)) → (∀ t, env.vision ≠ some (.ok t)) →
      (∀ t, env.tesseract ≠ .ok t) →
      extractReceiptData env = .ok (toGptRecord (minimalFallbackRecord env.todayLocale))) := by
  constructor
  · exact orElseFallback_ok _ _ (fallbackParsing_ok env)
  · intro h1 h2 h3
    have h3' : fallbackParsing env = .ok (toGptRecord (minimalFallbackRecord env.todayLocale)) := by
      unfold fallbackParsing
      cases ht : env.tesseract with
      | ok t => exact absurd ht (h3 t)
      | error e => rfl
    have h2' : extractAfterGpt env = fallbackParsing env := by
      unfold extractAfterGpt
      cases hv : env.vision with
      | none => rfl
      | some v =>
        cases v with
        | ok t => exact absurd hv (h2 t)
        | error e => rfl
    have h1' : extractBody env = extractAfterGpt env := by
      unfold extractBody
      cases hg : env.gpt with
      | none => rfl
      | some g =>
        cases g with
        | ok j => exact absurd hg (h1 j)
        | error e => rfl
    show orElseFallback (extractBody env) (fallbackParsing env) = _
    rw [h1', h2', h3']
    rfl

def envAllFail : AiEnv :=
  { gpt := some (.error ()), vision := some (.error ()), tesseract := .error (),
    todayLocale := "1/15/2024".data, todayISO := "2024-01-15".data }

/-- Witness for C1: the all-backends-fail environment, via `claim_C1`. -/
theorem claim_C1_witness :
    extractReceiptData envAllFail =
      .ok (toGptRecord (minimalFallbackRecord "1/15/2024".data)) :=
  (claim_C1 envAllFail).2
    (fun j h => by simp [envAllFail] at h)
    (fun t h => by simp [envAllFail] at h)
    (fun t h => by simp [envAllFail] at h)

theorem validateFile_ok_mime (f : UploadFile) (h : validateFile f = .ok ()) :
    allowedMimeTypes.contains f.mimetype = true := by
  unfold validateFile at h
  split_ifs at h with h1 h2 h3 h4
  all_goals simp at h
  simpa using h3

theorem deleteImage_db (url : Str) (s : SysState) : (deleteImage url s).db = s.db := by
  unfold deleteImage
  dsimp only
  split_ifs <;> rfl

theorem deleteImage_fs (url : Str) (s : SysState) : (deleteImage url s).fs = s.fs := by
  unfold deleteImage
  dsimp only
  split_ifs <;> rfl

theorem countDeleteCalls_append (l1 l2 : List Ev) (u : Str) :
    countDeleteCalls (l1 ++ l2) u = countDeleteCalls l1 u + countDeleteCalls l2 u := by
  simp [countDeleteCalls, List.filter_append]

theorem countDeleteCalls_deleteImage (url : Str) (s : SysState) :
    countDeleteCalls (deleteImage url s).log url = countDeleteCalls s.log url + 1 := by
  unfold deleteImage
  dsimp only
  split_ifs <;> simp [countDeleteCalls, List.filter_append]

/-- Claim C7: an upload violating the validation rules — declared size over
the configured maximum, or a MIME type outside the allow-list — makes the
pipeline fail with a client fault, with the whole state (file store, record
store, call log) left untouched: no image is written and no record is
persisted. -/
theorem claim_C7 (env : StorageEnv) (ai : Except Unit ExtractedReceiptData)
    (dbSaveOk : Bool) (newId : Str) (f : UploadFile) (s : SysState)
    (h : maxFileSize < f.size ∨ allowedMimeTypes.contains f.mimetype = false) :
    (extractReceiptDetails env ai dbSaveOk newId f s).1 = .error .client ∧
    (extractReceiptDetails env ai dbSaveOk newId f s).2 = s := by
  by_cases hm : isValidImageFile f = true
  · have hsize : maxFileSize < f.size := by
      rcases h with hs | hmime
      · exact hs
      · rw [isValidImageFile] at hm
        rw [hmime] at hm
        exact absurd hm (by simp)
    have hvf : validateFile f = .error .client := by
      unfold validateFile
      rw [if_pos hsize]
    have hsave : saveImage env f s = (.error .client, s) := by
      unfold saveImage
      rw [hvf]
    have hres : extractReceiptDetails env ai dbSaveOk newId f s = (.error .client, s) := by
      unfold extractReceiptDetails
      rw [hm, hsave]
      rfl
    exact ⟨by rw [hres], by rw [hres]⟩
  · have hm' : isValidImageFile f = false := by simpa using hm
    have hres : extractReceiptDetails env ai dbSaveOk newId f s = (.error .client, s) := by
      unfold extractReceiptDetails
      rw [hm']
      rfl
    exact ⟨by rw [hres], by rw [hres]⟩

def envStore : StorageEnv :=
  { uuid := "abc123".data, dirAccessOk := true, mkdirOk := true, writeOk := true }

def pdfFile : UploadFile :=
  { originalname := "doc.pdf".data, mimetype := "application/pdf".data,
    size := 1024, bufferLen := 10 }

def emptyState : SysState := { fs := [], db := [], log := [] }

/-- Witness for C7: a PDF upload, via `claim_C7`. -/
theorem claim_C7_witness :
    (extractReceiptDetails envStore (.error ()) true [] pdfFile emptyState).1 =
      .error .client ∧
    (extractReceiptDetails envStore (.error ()) true [] pdfFile emptyState).2 =
      emptyState :=
  claim_C7 envStore (.error ()) true [] pdfFile emptyState (Or.inr (by decide))

/-- Claim C8: when the image save succeeds but the extracted record fails
the persistence-invariant validation, the pipeline calls image deletion
exactly once with the saved image reference, fails with a server fault, and
persists no record. -/
theorem claim_C8 (env : StorageEnv) (dbSaveOk : Bool) (newId : Str) (f : UploadFile)
    (s : SysState) (data : ExtractedReceiptData)
    (hval : validateFile f = .ok ())
    (hdir : (env.dirAccessOk || env.mkdirOk) = true)
    (hw : env.writeOk = true)
    (hbad : isValidAiResponse data = false) :
    (extractReceiptDetails env (.ok data) dbSaveOk newId f s).1 = .error .server ∧
    countDeleteCalls (extractReceiptDetails env (.ok data) dbSaveOk newId f s).2.log
        ("/uploads/".data ++ (env.uuid ++ extnameLower f.originalname)) =
      countDeleteCalls s.log
        ("/uploads/".data ++ (env.uuid ++ extnameLower f.originalname)) + 1 ∧
    (extractReceiptDetails env (.ok data) dbSaveOk newId f s).2.db = s.db := by
  have him : isValidImageFile f = true := by
    unfold isValidImageFile
    exact validateFile_ok_mime f hval
  have hnd : (!env.dirAccessOk && !env.mkdirOk) = false := by
    rcases Bool.or_eq_true _ _ |>.mp hdir with h | h <;> simp [h]
  have hsave : saveImage env f s =
      (.ok ("/uploads/".data ++ (env.uuid ++ extnameLower f.originalname)),
       { s with fs := s.fs ++ ["uploads/".data ++ (env.uuid ++ extnameLower f.originalname)],
                log := s.log ++
                  [.writeE ("uploads/".data ++ (env.uuid ++ extnameLower f.originalname))] }) := by
    unfold saveImage
    rw [hval, hnd, hw]
    rfl
  have h0 : extractReceiptDetails env (.ok data) dbSaveOk newId f s =
      afterSave (.ok data) dbSaveOk newId
        ("/uploads/".data ++ (env.uuid ++ extnameLower f.originalname))
        { s with fs := s.fs ++ ["uploads/".data ++ (env.uuid ++ extnameLower f.originalname)],
                 log := s.log ++
                   [.writeE ("uploads/".data ++ (env.uuid ++ extnameLower f.originalname))] } := by
    unfold extractReceiptDetails
    rw [him, hsave]
    rfl
  have h1 : afterSave (.ok data) dbSaveOk newId
      ("/uploads/".data ++ (env.uuid ++ extnameLower f.originalname))
      { s with fs := s.fs ++ ["uploads/".data ++ (env.uuid ++ extnameLower f.originalname)],
               log := s.log ++
                 [.writeE ("uploads/".data ++ (env.uuid ++ extnameLower f.originalname))] } =
      (.error .server,
       deleteImage ("/uploads/".data ++ (env.uuid ++ extnameLower f.originalname))
         { s with fs := s.fs ++ ["uploads/".data ++ (env.uuid ++ extnameLower f.originalname)],
                  log := (s.log ++
                    [.writeE ("uploads/".data ++ (env.uuid ++ extnameLower f.originalname))]) ++
                    [.aiCall] }) := by
    unfold afterSave
    dsimp only
    rw [hbad]
    rfl
  refine ⟨by rw [h0, h1], ?_, ?_⟩
  · rw [h0, h1]
    dsimp only
    rw [countDeleteCalls_deleteImage]
    simp [countDeleteCalls_append, countDeleteCalls]
  · rw [h0, h1]
    dsimp only
    rw [deleteImage_db]

def badAiData : ExtractedReceiptData :=
  { date := "2024-01-15".data, currency := "USD".data, vendor_name := "Test Store".data,
    receipt_items := [⟨"Test Item".data, 0⟩], tax := -1, total := 12 }

def jpgFile : UploadFile :=
  { originalname := "r.jpg".data, mimetype := "image/jpeg".data, size := 1024, bufferLen := 10 }

/-- Witness for C8: negative-tax data after a successful save, via `claim_C8`. -/
theorem claim_C8_witness :
    (extractReceiptDetails envStore (.ok badAiData) true [] jpgFile emptyState).1 =
      .error .server ∧
    countDeleteCalls (extractReceiptDetails envStore (.ok badAiData) true [] jpgFile
        emptyState).2.log ("/uploads/abc123.jpg".data) =
      countDeleteCalls emptyState.log ("/uploads/abc123.jpg".data) + 1 ∧
    (extractReceiptDetails envStore (.ok badAiData) true [] jpgFile emptyState).2.db =
      emptyState.db :=
  claim_C8 envStore true [] jpgFile emptyState badAiData rfl rfl rfl
    (by simp [isValidAiResponse, badAiData])

/-- Claim C9 as amended: deleting a stored record removes it from the
Record Store and invokes the File Store's image-deletion operation exactly
once with the record's stored reference; that operation never throws (so a
deletion failure cannot block the record removal), but it only *marks* the
image for deletion — the stored file itself is left in place. -/
theorem claim_C9 (id : Str) (s : SysState) (r : ReceiptRow)
    (hfind : findOne s id = some r) :
    (deleteReceipt id true s).1 = .ok () ∧
    (deleteReceipt id true s).2.db = s.db.filter (fun x => !(x.id == r.id)) ∧
    countDeleteCalls (deleteReceipt id true s).2.log r.image_url =
      countDeleteCalls s.log r.image_url + 1 ∧
    (deleteReceipt id true s).2.fs = s.fs := by
  have hres : deleteReceipt id true s =
      (.ok (), { fs := (deleteImage r.image_url s).fs,
                 db := (deleteImage r.image_url s).db.filter (fun x => !(x.id == r.id)),
                 log := (deleteImage r.image_url s).log ++ [.removeE r.id] }) := by
    unfold deleteReceipt
    rw [hfind]
    rfl
  refine ⟨by rw [hres], ?_, ?_, ?_⟩
  · rw [hres]
    show (deleteImage r.image_url s).db.filter (fun x => !(x.id == r.id)) = _
    rw [deleteImage_db]
  · rw [hres]
    show countDeleteCalls ((deleteImage r.image_url s).log ++ [.removeE r.id]) r.image_url = _
    rw [countDeleteCalls_append, countDeleteCalls_deleteImage]
    simp [countDeleteCalls]
  · rw [hres]
    exact deleteImage_fs r.image_url s

def c9Row : ReceiptRow :=
  { id := "id1".data, date := "2024-01-15".data, currency := "USD".data,
    vendor_name := "V".data, receipt_items := [⟨"x".data, 0⟩], tax := 0, total := 0,
    image_url := "/uploads/img.jpg".data }

def c9State : SysState := { fs := ["uploads/img.jpg".data], db := [c9Row], log := [] }

/-- Counterexample to claim C9: after a successful explicit delete of a
stored record, the stored image file is still present in the File Store —
`StorageService.deleteImage` only logs that the image is marked for
deletion and removes nothing (the service imports no removal primitive). -/
theorem claim_C9_counterexample :
    (deleteReceipt "id1".data true c9State).1 = .ok () ∧
    (deleteReceipt "id1".data true c9State).2.db = [] ∧
    (deleteReceipt "id1".data true c9State).2.fs = ["uploads/img.jpg".data] := by
  refine ⟨rfl, rfl, rfl⟩

/-- Witness for C9: the concrete one-record store, via `claim_C9`. -/
theorem claim_C9_witness :
    (deleteReceipt "id1".data true c9State).1 = .ok () ∧
    (deleteReceipt "id1".data true c9State).2.db =
      c9State.db.filter (fun x => !(x.id == c9Row.id)) ∧
    countDeleteCalls (deleteReceipt "id1".data true c9State).2.log c9Row.image_url =
      countDeleteCalls c9State.log c9Row.image_url + 1 ∧
    (deleteReceipt "id1".data true c9State).2.fs = c9State.fs :=
  claim_C9 "id1".data c9State c9Row rfl

theorem firstMatch_of (m : Str → Option Str) (hm : m [] = none) :
    ∀ (k : ℕ) (text r : Str), (∀ i < k, m (text.drop i) = none) →
      m (text.drop k) = some r → firstMatch m text = some r := by
  intro k
  induction k with
  | zero =>
    intro text r _ h2
    rw [List.drop_zero] at h2
    cases text with
    | nil => rw [hm] at h2; exact absurd h2 (by simp)
    | cons c rest =>
      rw [firstMatch, h2]
      rfl
  | succ k ih =>
    intro text r h1 h2
    cases text with
    | nil =>
      rw [List.drop_nil, hm] at h2
      exact absurd h2 (by simp)
    | cons c rest =>
      have h0 : m (c :: rest) = none := by
        have := h1 0 (Nat.succ_pos k)
        rwa [List.drop_zero] at this
      rw [firstMatch, h0]
      show firstMatch m rest = some r
      apply ih rest r
      · intro i hi
        have := h1 (i + 1) (Nat.succ_lt_succ hi)
        rwa [List.drop_succ_cons] at this
      · rwa [List.drop_succ_cons] at h2

theorem matchP1At_at_date (y3 y4 m1 m2 d1 d2 : Char) (post : Str)
    (h3 : y3.isDigit = true) (h4 : y4.isDigit = true) (hm1 : m1.isDigit = true)
    (hm2 : m2.isDigit = true) (hd1 : d1.isDigit = true) (hd2 : d2.isDigit = true)
    (hpost : headNotDigit post = true) :
    matchP1At ([y3, y4, '-', m1, m2, '-', d1, d2] ++ post) =
      some [y3, y4, '-', m1, m2, '-', d1, d2] := by
  cases post with
  | nil =>
    simp [matchP1At, d12Then, sepThen, d24End, takeDigits, isSepCh,
      h3, h4, hm1, hm2, hd1, hd2]
  | cons c post' =>
    have hc : c.isDigit = false := by simpa [headNotDigit] using hpost
    cases post' with
    | nil =>
      simp [matchP1At, d12Then, sepThen, d24End, takeDigits, isSepCh,
        h3, h4, hm1, hm2, hd1, hd2, hc]
    | cons c2 post'' =>
      simp [matchP1At, d12Then, sepThen, d24End, takeDigits, isSepCh,
        h3, h4, hm1, hm2, hd1, hd2, hc]

/-- Claim C10: for every text of the form `pre ++ "YYYY-MM-DD" ++ post`
(digits as hypothesised) where the date is not followed by a further digit
and no match of the first numeric date pattern starts before the third year
digit, `extractDate` returns the truncated `YY-MM-DD` — the
`\d{1,2}[\/\-]\d{1,2}[\/\-]\d{2,4}` pattern is tried before the year-first
pattern and its leftmost match starts inside the four-digit year. -/
theorem claim_C10 (today pre post : Str) (y1 y2 y3 y4 m1 m2 d1 d2 : Char)
    (_hy1 : y1.isDigit = true) (_hy2 : y2.isDigit = true)
    (hy3 : y3.isDigit = true) (hy4 : y4.isDigit = true)
    (hm1 : m1.isDigit = true) (hm2 : m2.isDigit = true)
    (hd1 : d1.isDigit = true) (hd2 : d2.isDigit = true)
    (hpost : headNotDigit post = true)
    (hpre : ∀ i < pre.length + 2,
      matchP1At ((pre ++ ([y1, y2, y3, y4, '-', m1, m2, '-', d1, d2] ++ post)).drop i) = none) :
    extractDate today (pre ++ ([y1, y2, y3, y4, '-', m1, m2, '-', d1, d2] ++ post)) =
      [y3, y4, '-', m1, m2, '-', d1, d2] := by
  have hdrop : (pre ++ ([y1, y2, y3, y4, '-', m1, m2, '-', d1, d2] ++ post)).drop
      (pre.length + 2) = [y3, y4, '-', m1, m2, '-', d1, d2] ++ post := by
    rw [show pre ++ ([y1, y2, y3, y4, '-', m1, m2, '-', d1, d2] ++ post) =
      (pre ++ [y1, y2]) ++ ([y3, y4, '-', m1, m2, '-', d1, d2] ++ post) by simp]
    rw [show pre.length + 2 = (pre ++ [y1, y2]).length by simp]
    exact List.drop_left _ _
  have hfm : firstMatch matchP1At
      (pre ++ ([y1, y2, y3, y4, '-', m1, m2, '-', d1, d2] ++ post)) =
      some [y3, y4, '-', m1, m2, '-', d1, d2] := by
    apply firstMatch_of matchP1At rfl (pre.length + 2) _ _ hpre
    rw [hdrop]
    exact matchP1At_at_date y3 y4 m1 m2 d1 d2 post hy3 hy4 hm1 hm2 hd1 hd2 hpost
  unfold extractDate
  rw [hfm]

/-- Witness for C10: the scenario date line "Date: 2024-01-15", via
`claim_C10`. -/
theorem claim_C10_witness :
    extractDate [] ("Date: ".data ++ (['2', '0', '2', '4', '-', '0', '1', '-', '1', '5'] ++ [])) =
      "24-01-15".data :=
  claim_C10 [] "Date: ".data [] '2' '0' '2' '4' '0' '1' '1' '5'
    (by decide) (by decide) (by decide) (by decide) (by decide) (by decide)
    (by decide) (by decide) (by decide) (by decide)

end Claims
